import Mathlib

/-!
Verification of the transactional test-isolation harness
(knex-integration-testing).

The repository is a small data-access layer over an `items` table plus a
test harness that runs every test inside a database transaction which is
always rolled back.  This file gives a shallow embedding of:

* the `items-data` repository functions (`find`, `findById`, `create`,
  `updateById`, `deleteById`);
* the seed script (`seeds/dev/index.js`);
* the transaction-scope mechanism of `src/__test__.js` (`rejected`,
  `begin`) together with the mocha `beforeEach`/`afterEach` wiring of the
  test file, modelled both as a state machine over table states and as an
  event trace.

Database rows, promise outcomes and the mocha scheduling are modelled
explicitly; external collaborators (knex transactions, the mocha hook
protocol) are embedded following the contracts stated in the spec
(sections 4.1, 4.2, 6), since their code is not part of this repository.
-/

/-- A row of the `items` table, as created by the migration
`20161112164249_table-items.js`: serial `id`, non-nullable `sku`,
nullable `mpn`, nullable `description`. -/
structure Item where
  id : Nat
  sku : String
  mpn : Option String
  description : Option String
deriving Repr, DecidableEq

/-- The `items` table: its rows plus the identity-sequence counter that
assigns the next `increments('id')` value. -/
structure ItemsTable where
  rows : List Item
  nextId : Nat
deriving Repr, DecidableEq

/-- The column values a caller supplies when inserting
(`{ sku, description }` in the seed and the tests); unset columns
default to SQL `null`. -/
structure NewItem where
  sku : String
  mpn : Option String := none
  description : Option String := none
deriving Repr, DecidableEq

/-- A partial update, as passed to `updateById(id, props)`: only the
fields present are overwritten. -/
structure ItemProps where
  sku : Option String := none
  mpn : Option (Option String) := none
  description : Option (Option String) := none
deriving Repr, DecidableEq

/-- `find()`: `db.select('*').from('items')`. -/
def find (db : ItemsTable) : List Item :=
  db.rows

/-- `findById(id)`: `db.select('*').from('items').where({ id }).first()`. -/
def findById (db : ItemsTable) (id : Nat) : Option Item :=
  (db.rows.filter (fun r => r.id == id)).head?

/-- `db.insert(item).into('items').returning('id')`: appends a row with
the next identity value and returns the assigned id. -/
def insertReturningId (db : ItemsTable) (item : NewItem) : ItemsTable × Nat :=
  ({ rows := db.rows ++
       [{ id := db.nextId, sku := item.sku, mpn := item.mpn,
          description := item.description }],
     nextId := db.nextId + 1 }, db.nextId)

/-- `create(item)`: insert returning id, then `findById(id)`. -/
def create (db : ItemsTable) (item : NewItem) : ItemsTable × Option Item :=
  let res := insertReturningId db item
  (res.1, findById res.1 res.2)

/-- Overwrite exactly the columns present in `props`
(`db.update(props)` semantics). -/
def applyProps (p : ItemProps) (r : Item) : Item :=
  { r with
    sku := p.sku.getD r.sku
    mpn := p.mpn.getD r.mpn
    description := p.description.getD r.description }

/-- `updateById(id, props)`: `db.update(props).where({ id }).into('items')`,
then `findById(id)`. -/
def updateById (db : ItemsTable) (id : Nat) (p : ItemProps) :
    ItemsTable × Option Item :=
  let db2 : ItemsTable :=
    { db with rows := db.rows.map (fun r => if r.id == id then applyProps p r else r) }
  (db2, findById db2 id)

/-- JavaScript truthiness of the destructured head of the returned id
list: `undefined` (no row deleted) and the number `0` are falsy, every
other id is truthy (`!!deleted`). -/
def truthyNat : Option Nat → Bool
  | none => false
  | some n => n != 0

/-- `deleteById(id)`: `db.delete().from('items').where({ id }).returning('id')`
followed by `!!deleted` on the first returned id. -/
def deleteById (db : ItemsTable) (id : Nat) : ItemsTable × Bool :=
  let returned := (db.rows.filter (fun r => r.id == id)).map (fun r => r.id)
  ({ db with rows := db.rows.filter (fun r => r.id != id) },
   truthyNat returned.head?)

example : find ⟨[⟨1, "hammer", none, none⟩], 2⟩ = [⟨1, "hammer", none, none⟩] := by decide
example : (deleteById ⟨[⟨1, "hammer", none, none⟩], 2⟩ 1).2 = true := by decide
example : (deleteById ⟨[⟨1, "hammer", none, none⟩], 2⟩ 5).2 = false := by decide
example : findById ⟨[⟨1, "hammer", none, none⟩], 2⟩ 1 = some ⟨1, "hammer", none, none⟩ := by decide

/-! ## Transaction scopes

A knex transaction gives the test a handle whose queries see the scope's
own working state; `COMMIT` would publish that working state, `ROLLBACK`
discards it (glossary: "discarding all mutations performed within a
transaction scope, returning storage to its pre-scope state").  The
harness of `src/__test__.js` opens one scope per test (`beforeEach(begin …)`)
and the test file's `afterEach(() => trx.rollback())` always rolls it
back. -/

/-- Completion state of a transaction scope (spec section 3:
pending, committed, rolled back). -/
inductive ScopeStatus where
  | pendingScope
  | rolledBack
  | committed
deriving Repr, DecidableEq

/-- An open transaction scope: the database state when the transaction
began (`base`), the state seen through the `trx` handle (`work`), and
the completion state. -/
structure Scope where
  base : ItemsTable
  work : ItemsTable
  status : ScopeStatus
deriving Repr, DecidableEq

/-- Opening a scope (`db.transaction(trx => …)` handing out `trx`):
the handle initially sees exactly the current database state. -/
def beginScope (db : ItemsTable) : Scope :=
  { base := db, work := db, status := .pendingScope }

/-- `trx.rollback()`, issued by the test file's
`afterEach(() => trx.rollback())`. -/
def afterEachTeardown (s : Scope) : Scope :=
  { s with status := .rolledBack }

/-- The database state once a scope's transaction finishes: a committed
scope publishes its working state; a rolled-back (or still pending,
i.e. aborted by process end) scope leaves the pre-scope state. -/
def settle (s : Scope) : ItemsTable :=
  match s.status with
  | .committed => s.work
  | .rolledBack => s.base
  | .pendingScope => s.base

/-- One repository call a test body can make through the `trx` handle
(the five operations of `items-data.js`). -/
inductive Op where
  | findAll
  | findOne (id : Nat)
  | createOne (item : NewItem)
  | updateOne (id : Nat) (p : ItemProps)
  | deleteOne (id : Nat)
deriving Repr, DecidableEq

/-- The value a repository call resolves with. -/
inductive OpResult where
  | list (l : List Item)
  | one (o : Option Item)
  | flag (b : Bool)
deriving Repr, DecidableEq

/-- Execute one repository call against a table state, returning the new
state and the resolved value. -/
def execOp (db : ItemsTable) : Op → ItemsTable × OpResult
  | .findAll => (db, .list (find db))
  | .findOne id => (db, .one (findById db id))
  | .createOne item =>
      let res := create db item
      (res.1, .one res.2)
  | .updateOne id p =>
      let res := updateById db id p
      (res.1, .one res.2)
  | .deleteOne id =>
      let res := deleteById db id
      (res.1, .flag res.2)

/-- Run a test body: a sequence of repository calls through the handle,
collecting the resolved values. -/
def runOps : ItemsTable → List Op → ItemsTable × List OpResult
  | db, [] => (db, [])
  | db, op :: ops =>
      let step := execOp db op
      let rest := runOps step.1 ops
      (rest.1, step.2 :: rest.2)

/-- One complete test under the harness: `beforeEach(begin …)` opens a
scope, the body runs its repository calls against the scope's handle,
`afterEach` rolls the scope back; returns the body's resolved values and
the database state visible after teardown. -/
def runTest (db : ItemsTable) (ops : List Op) : List OpResult × ItemsTable :=
  let s0 := beginScope db
  let body := runOps s0.work ops
  let s1 := afterEachTeardown { s0 with work := body.1 }
  (body.2, settle s1)

/-- The database states observed after each test's teardown when a
sequence of test bodies runs under the harness. -/
def statesAfter : ItemsTable → List (List Op) → List ItemsTable
  | _, [] => []
  | db, t :: ts =>
      let db2 := (runTest db t).2
      db2 :: statesAfter db2 ts

/-! ## Promises and the scope controller

`src/__test__.js`:

    const rejected = promise => promise.catch(err => err)

    const begin = setup => done => {
      rejected(db.transaction(trx => {
        setup(trx)
        done()
      }))
    }

A settled JS promise either fulfilled with a value or rejected with a
reason; `catch(err => err)` turns a rejection reason into an ordinary
fulfillment value, so values and reasons share one type here. -/

/-- A JS error/rejection reason, modelled by its message. -/
abbrev Err := String

/-- The settled outcome of a promise. -/
inductive PromiseOutcome (α : Type) where
  | fulfilled (v : α)
  | rejectedWith (e : α)
deriving Repr, DecidableEq

/-- `rejected = promise => promise.catch(err => err)`: a fulfilled
promise passes through untouched (no rejection, so the handler is
skipped); a rejected promise fulfills with its reason. -/
def rejected {α : Type} : PromiseOutcome α → PromiseOutcome α
  | .fulfilled v => .fulfilled v
  | .rejectedWith e => .fulfilled e

/-- Whether a settled promise is a rejection. -/
def isRejection {α : Type} : PromiseOutcome α → Bool
  | .fulfilled _ => false
  | .rejectedWith _ => true

/-- What one invocation of the hook `begin(setup)` returns to mocha.
`doneSignaled`: whether the `done` completion callback ran;
`setupInvoked`: whether `setup(trx)` ran; `uncaught`: a synchronous
exception escaping the hook body (mocha reports it as a before-each
hook failure); `lifetimeHandled`: whether a rejection handler is
attached to the transaction's lifetime promise (it always is, because
`begin` wraps `db.transaction(…)` in `rejected` immediately). -/
structure HookRun where
  doneSignaled : Bool
  setupInvoked : Bool
  uncaught : Option Err
  lifetimeHandled : Bool
deriving Repr, DecidableEq

/-- One invocation of the hook returned by `begin(setup)`.

The knex collaborator is embedded per the spec's Connection Manager
contract (section 4.2): `db.transaction(cb)` acquires a connection and
begins a transaction; on success it delivers a live handle to `cb`,
which here runs `setup(trx); done()`; if the start fails
(`start = some e`, pool exhaustion or connection error) the callback is
never invoked and the lifetime promise rejects with `e`.  The scope
controller's own code catches nothing synchronously: a synchronous
throw from `setup` (`setupResult = .error e`) escapes the hook body
before `done()` is reached; only promise rejections are absorbed, by
the `catch` that `rejected` attaches. -/
def runHook (start : Option Err) (setupResult : Except Err Unit) : HookRun :=
  match start with
  | some _ =>
      { doneSignaled := false, setupInvoked := false,
        uncaught := none, lifetimeHandled := true }
  | none =>
      match setupResult with
      | .error e =>
          { doneSignaled := false, setupInvoked := true,
            uncaught := some e, lifetimeHandled := true }
      | .ok _ =>
          { doneSignaled := true, setupInvoked := true,
            uncaught := none, lifetimeHandled := true }

/-- How the transaction's lifetime promise settles, as the controller
observes it through the `rejected` wrapper attached at creation. -/
def observedLifetime (settledAs : PromiseOutcome Err) : PromiseOutcome Err :=
  rejected settledAs

/-- The reason with which knex rejects a transaction's lifetime promise
when `trx.rollback()` aborts it deliberately. -/
def rollbackAbort : Err := "Transaction rejected with non-error: undefined"

/-! ## The event trace of a mocha run

`src/unnamed/part_000` registers, for the whole suite:
`before(() => db.seed.run())`, `beforeEach(begin(…))`, each `it` body,
`afterEach(() => trx.rollback())`, `after(() => db.destroy())`.  Mocha
runs tests strictly sequentially (spec section 5).  The trace below is
the observable event order of that schedule; test `n` stands for the
n-th test of the run. -/

/-- Observable events of a test run. -/
inductive Event where
  | seedRun
  | trxStart (n : Nat)
  | setupRun (n : Nat)
  | doneCalled (n : Nat)
  | testBody (n : Nat)
  | rollbackIssued (n : Nat)
  | commitIssued (n : Nat)
  | trxSettled (n : Nat) (rejection : Bool)
  | rejectionSwallowed (n : Nat)
  | destroy
deriving Repr, DecidableEq

/-- Events of one test under the harness, in order: the hook's
transaction starts and yields a handle, `setup(trx)` runs, `done()` is
signaled (the lifetime promise still pending), the test body runs,
`afterEach` issues `trx.rollback()`, the lifetime promise settles as a
rejection, which the `catch` attached by `rejected` swallows. -/
def testTrace (n : Nat) : List Event :=
  [.trxStart n, .setupRun n, .doneCalled n, .testBody n,
   .rollbackIssued n, .trxSettled n true, .rejectionSwallowed n]

/-- The first `tests` tests, in mocha's sequential order. -/
def suiteBody : Nat → List Event
  | 0 => []
  | n + 1 => suiteBody n ++ testTrace n

/-- A whole run: `before` seeds once, the tests run sequentially, `after`
destroys the pool. -/
def suiteTrace (tests : Nat) : List Event :=
  Event.seedRun :: (suiteBody tests ++ [Event.destroy])

/-- `x` occurs strictly before `y` in the trace `tr`. -/
def seqBefore (x y : Event) (tr : List Event) : Prop :=
  ∃ l₁ l₂ l₃, tr = l₁ ++ x :: (l₂ ++ y :: l₃)

/-! ## The seed script

`seeds/dev/index.js` queries `pg_tables` for the names of public tables
whose name is not LIKE `%migrations%`, runs
`truncate table <names> restart identity`, and inserts the three
baseline items. -/

/-- A table of the postgres database: catalog coordinates, the identity
sequence's next value, and its rows (row payloads of every table are
modelled uniformly by `Item`; only the `items` table's payloads are ever
inspected). -/
structure PgTable where
  schemaname : String
  tablename : String
  seq : Nat
  rows : List Item
deriving Repr, DecidableEq

/-- The pattern `p` matches at the head of `cs`. -/
def matchesHead : List Char → List Char → Bool
  | [], _ => true
  | _ :: _, [] => false
  | p :: ps, c :: cs => p == c && matchesHead ps cs

/-- The pattern occurs somewhere in `cs`. -/
def occursIn (pat : List Char) : List Char → Bool
  | [] => pat.isEmpty
  | c :: cs => matchesHead pat (c :: cs) || occursIn pat cs

/-- SQL `tablename like '%migrations%'`: the pattern occurs somewhere in
the name. -/
def likeMigrations (s : String) : Bool :=
  occursIn "migrations".toList s.toList

/-- The seed's catalog query:
`select … array_agg(tablename) … from pg_tables where schemaname = 'public'
and tablename not like '%migrations%'`. -/
def pgTablesQuery (db : List PgTable) : List String :=
  (db.filter (fun t => t.schemaname == "public" && !likeMigrations t.tablename)).map
    (fun t => t.tablename)

/-- `truncate table <names> restart identity`: empties each named table
(unqualified names resolve to the public schema) and resets its identity
sequence to 1. -/
def truncateRestartIdentity (names : List String) (db : List PgTable) : List PgTable :=
  db.map (fun t =>
    if names.contains t.tablename && t.schemaname == "public" then
      { t with rows := [], seq := 1 }
    else t)

/-- Append one inserted row to a table, consuming its identity value. -/
def insertRow (t : PgTable) (v : NewItem) : PgTable :=
  { t with
    rows := t.rows ++
      [{ id := t.seq, sku := v.sku, mpn := v.mpn, description := v.description }],
    seq := t.seq + 1 }

/-- `knex.insert(vals).into(name)`: the unqualified name resolves to the
public schema. -/
def insertInto (db : List PgTable) (name : String) (vals : List NewItem) :
    List PgTable :=
  db.map (fun t =>
    if t.schemaname == "public" && t.tablename == name then vals.foldl insertRow t
    else t)

/-- The three baseline rows the seed inserts. -/
def seedRows : List NewItem :=
  [{ sku := "hammer", description := some "A Claw Hammer" },
   { sku := "drill", description := some "A Power Drill" },
   { sku := "toolbelt", description := some "A Useful Belt" }]

/-- `seed` from `seeds/dev/index.js`: query the truncation targets,
truncate them with identity restart, insert the baseline items. -/
def seed (db : List PgTable) : List PgTable :=
  insertInto (truncateRestartIdentity (pgTablesQuery db) db) "items" seedRows

/-- The development database before a run: the `items` table created by
the migration (here with stale rows and an advanced sequence left over
from earlier work, which the seed must clear) and knex's two
migration-tracking tables (their rows stand for migration records). -/
def devDatabase : List PgTable :=
  [{ schemaname := "public", tablename := "items", seq := 7,
     rows := [{ id := 4, sku := "saw", mpn := none, description := some "stale" },
              { id := 6, sku := "wrench", mpn := none, description := none }] },
   { schemaname := "public", tablename := "knex_migrations", seq := 2,
     rows := [{ id := 1, sku := "20161112164249_table-items", mpn := none,
                description := none }] },
   { schemaname := "public", tablename := "knex_migrations_lock", seq := 1,
     rows := [{ id := 0, sku := "lock", mpn := none, description := none }] }]

/-- Look up the public `items` table as an `ItemsTable` (empty if absent). -/
def itemsOf (db : List PgTable) : ItemsTable :=
  match db.filter (fun t => t.schemaname == "public" && t.tablename == "items") with
  | [] => { rows := [], nextId := 1 }
  | t :: _ => { rows := t.rows, nextId := t.seq }

/-- The rows the seed establishes in `items`. -/
def seededItemRows : List Item :=
  [{ id := 1, sku := "hammer", mpn := none, description := some "A Claw Hammer" },
   { id := 2, sku := "drill", mpn := none, description := some "A Power Drill" },
   { id := 3, sku := "toolbelt", mpn := none, description := some "A Useful Belt" }]

/-- The `items` table state every test starts from: the seeded baseline. -/
def seedBaseline : ItemsTable :=
  { rows := seededItemRows, nextId := 4 }

example : itemsOf (seed devDatabase) = seedBaseline := by decide
example : likeMigrations "knex_migrations_lock" = true := by decide
example : likeMigrations "items" = false := by decide
example : pgTablesQuery devDatabase = ["items"] := by decide

/-! ## Helper lemmas -/

/-- Rollback discards the scope's working state: after a test's
teardown the database is exactly what it was when the scope opened. -/
theorem runTest_restores (db : ItemsTable) (ops : List Op) :
    (runTest db ops).2 = db := rfl

/-- Every state observed after a test's teardown equals the state the
whole sequence started from. -/
theorem statesAfter_eq (ts : List (List Op)) (db db' : ItemsTable)
    (h : db' ∈ statesAfter db ts) : db' = db := by
  induction ts generalizing db with
  | nil => simp [statesAfter] at h
  | cons t ts ih =>
      simp only [statesAfter, runTest_restores, List.mem_cons] at h
      rcases h with h | h
      · exact h
      · exact ih db h

/-- If `y` occurs in `rest` then `x` precedes `y` in `x :: rest`. -/
theorem seqBefore_cons_of_mem (x y : Event) (rest : List Event)
    (h : y ∈ rest) : seqBefore x y (x :: rest) := by
  obtain ⟨s, t, rfl⟩ := List.append_of_mem h
  exact ⟨[], s, t, rfl⟩

/-- Any event of the `n`-th test's trace occurs in a suite of more than
`n` tests. -/
theorem mem_suiteBody (tests n : Nat) (e : Event) (h : n < tests)
    (he : e ∈ testTrace n) : e ∈ suiteBody tests := by
  induction tests with
  | zero => exact absurd h (Nat.not_lt_zero n)
  | succ m ih =>
      rcases Nat.lt_succ_iff_lt_or_eq.mp h with h' | rfl
      · exact List.mem_append_left _ (ih h')
      · exact List.mem_append_right _ he

/-- No commit event ever appears in a test's trace. -/
theorem commit_not_mem_testTrace (k n : Nat) :
    Event.commitIssued k ∉ testTrace n := by
  simp [testTrace]

/-- No commit event ever appears in a whole run's trace. -/
theorem commit_not_mem_suiteTrace (tests k : Nat) :
    Event.commitIssued k ∉ suiteTrace tests := by
  have hbody : ∀ m, Event.commitIssued k ∉ suiteBody m := by
    intro m
    induction m with
    | zero => simp [suiteBody]
    | succ m ih =>
        simp only [suiteBody, List.mem_append]
        rintro (h | h)
        · exact ih h
        · exact commit_not_mem_testTrace k m h
  simp only [suiteTrace, List.mem_cons, List.mem_append, List.mem_singleton,
    List.not_mem_nil, or_false]
  rintro (h | h | h) <;> first
    | exact Event.noConfusion h
    | exact hbody tests h

/-- The seed event appears in no test's trace. -/
theorem seedRun_count_suiteBody (tests : Nat) :
    (suiteBody tests).count Event.seedRun = 0 := by
  induction tests with
  | zero => rfl
  | succ m ih =>
      simp [suiteBody, List.count_append, ih, testTrace, List.count_cons]

/-! ## Claims -/

/-- Claim C1: for every sequence of tests, each performing arbitrary
repository mutations through its scope's transaction handle, the
database state observed after each test's rollback teardown is exactly
the seeded baseline — querying the items table returns the original
seeded rows, and the next scope's handle sees them too, so no test's
mutations are visible to any later test. -/
theorem C1_rollback_preserves_baseline (tests : List (List Op))
    (db' : ItemsTable) (h : db' ∈ statesAfter seedBaseline tests) :
    db' = seedBaseline ∧ find db' = seededItemRows ∧
    find (beginScope db').work = seededItemRows := by
  obtain rfl := statesAfter_eq tests seedBaseline db' h
  exact ⟨rfl, rfl, rfl⟩

/-- Concrete instance of C1: a run of two tests, one inserting a row and
one deleting row 1, observes the seeded baseline after each teardown. -/
theorem C1_rollback_preserves_baseline_witness :
    seedBaseline ∈
      statesAfter seedBaseline
        [[Op.createOne { sku := "saw", description := some "A Nice Saw" }],
         [Op.deleteOne 1]] ∧
    (seedBaseline = seedBaseline ∧ find seedBaseline = seededItemRows ∧
      find (beginScope seedBaseline).work = seededItemRows) :=
  ⟨by decide,
   C1_rollback_preserves_baseline
     [[Op.createOne { sku := "saw", description := some "A Nice Saw" }],
      [Op.deleteOne 1]] seedBaseline (by decide)⟩

/-- Claim C2: in every test's trace, the transaction handle arrives,
then `setup(trx)` runs, then `done()` is signaled, all before the test
body executes, and the `done` signal precedes the settlement of the
transaction's lifetime promise (the hook does not wait for it); in the
hook model, a successful start invokes setup and signals done. -/
theorem C2_setup_then_done_before_body (n : Nat) :
    seqBefore (.trxStart n) (.setupRun n) (testTrace n) ∧
    seqBefore (.setupRun n) (.doneCalled n) (testTrace n) ∧
    seqBefore (.doneCalled n) (.testBody n) (testTrace n) ∧
    seqBefore (.doneCalled n) (.trxSettled n true) (testTrace n) ∧
    (runHook none (.ok ())).setupInvoked = true ∧
    (runHook none (.ok ())).doneSignaled = true := by
  refine ⟨⟨[], [], _, rfl⟩, ⟨[.trxStart n], [], _, rfl⟩,
    ⟨[.trxStart n, .setupRun n], [], _, rfl⟩,
    ⟨[.trxStart n, .setupRun n], [.testBody n, .rollbackIssued n], _, rfl⟩,
    rfl, rfl⟩

/-- Claim C3: the scope controller attaches a rejection handler to the
transaction's lifetime promise in every hook run; through that handler
every settled outcome — including the deliberate rollback rejection —
is observed as a fulfillment, never as a rejection, and in every test's
trace the rollback rejection is swallowed after it settles. -/
theorem C3_lifecycle_rejections_swallowed :
    (∀ (start : Option Err) (setupResult : Except Err Unit),
      (runHook start setupResult).lifetimeHandled = true) ∧
    (∀ s : PromiseOutcome Err, isRejection (observedLifetime s) = false) ∧
    observedLifetime (.rejectedWith rollbackAbort) = .fulfilled rollbackAbort ∧
    (∀ n : Nat,
      seqBefore (.trxSettled n true) (.rejectionSwallowed n) (testTrace n)) := by
  refine ⟨?_, ?_, rfl, ?_⟩
  · intro start setupResult
    cases start with
    | none => cases setupResult <;> rfl
    | some e => rfl
  · intro s
    cases s <;> rfl
  · intro n
    exact ⟨[.trxStart n, .setupRun n, .doneCalled n, .testBody n,
      .rollbackIssued n], [], [], rfl⟩

/-- Claim C4: a synchronous exception thrown by `setup` is not caught by
the scope controller: it escapes the hook body before `done()` is
reached, surfacing as a before-each hook failure, while the rejection
handler on the lifetime promise (the swallowed-rejection path) is a
separate channel. -/
theorem C4_setup_throw_escapes (e : Err) :
    runHook none (.error e) =
      { doneSignaled := false, setupInvoked := true, uncaught := some e,
        lifetimeHandled := true } ∧
    (runHook none (.error e)).uncaught = some e ∧
    (runHook none (.error e)).doneSignaled = false :=
  ⟨rfl, rfl, rfl⟩

/-- Counterexample to claim C5 as stated: when the transaction fails to
start (here a connection error), the callback that would run
`setup(trx); done()` is never invoked, so the before-each hook does not
signal success. -/
theorem C5_counterexample :
    ¬ (runHook (some "connection error") (.ok ())).doneSignaled = true := by
  decide

/-- Claim C5 as amended: when the transaction fails to start, the
failure is captured internally — the handler attached by `rejected`
turns the lifetime promise's rejection into a discarded fulfillment, and
no synchronous error escapes the hook — but `setup` is never invoked and
`done` is never called, so the before-each hook does not signal success
and the test fails through the framework's hook timeout rather than a
hook-level error report. -/
theorem C5_start_failure_amended (e : Err) (s : Except Err Unit) :
    runHook (some e) s =
      { doneSignaled := false, setupInvoked := false, uncaught := none,
        lifetimeHandled := true } ∧
    observedLifetime (.rejectedWith e) = .fulfilled e :=
  ⟨rfl, rfl⟩

/-- Claim C9: running the same test body twice in sequence under the
begin/rollback mechanism is idempotent: the second run starts from the
same state as the first (the seeded baseline), opens an identical scope,
and its repository calls resolve to identical results. -/
theorem C9_repeat_run_idempotent (ops : List Op) :
    (runTest seedBaseline ops).2 = seedBaseline ∧
    beginScope ((runTest seedBaseline ops).2) = beginScope seedBaseline ∧
    (runTest ((runTest seedBaseline ops).2) ops).1 =
      (runTest seedBaseline ops).1 :=
  ⟨rfl, rfl, rfl⟩

/-- Claim C10: `rejected(p) = p.catch(err => err)` never rejects: a
fulfillment passes through with its value and a rejection becomes an
ordinary fulfillment carrying the reason. -/
theorem C10_rejected_never_rejects (α : Type) (v e : α)
    (p : PromiseOutcome α) :
    rejected (PromiseOutcome.fulfilled v) = .fulfilled v ∧
    rejected (PromiseOutcome.rejectedWith e) = .fulfilled e ∧
    isRejection (rejected p) = false := by
  refine ⟨rfl, rfl, ?_⟩
  cases p <;> rfl

/-- Claim C6: every scope opened by the harness is rolled back and never
committed: in a run of any length each test's trace contains its
rollback, issued after the test body, no commit event ever occurs in
the whole run, and the teardown's effect on a scope is the rolled-back
completion state, which discards the working state and leaves the
pre-scope database. -/
theorem C6_every_scope_rolled_back (tests n : Nat) (h : n < tests) :
    Event.rollbackIssued n ∈ suiteTrace tests ∧
    seqBefore (.testBody n) (.rollbackIssued n) (testTrace n) ∧
    (∀ k, Event.commitIssued k ∉ suiteTrace tests) ∧
    (∀ s : Scope, (afterEachTeardown s).status = .rolledBack ∧
      settle (afterEachTeardown s) = s.base) := by
  refine ⟨?_, ⟨[.trxStart n, .setupRun n, .doneCalled n], [], _, rfl⟩,
    fun k => commit_not_mem_suiteTrace tests k, fun s => ⟨rfl, rfl⟩⟩
  have hb : Event.rollbackIssued n ∈ suiteBody tests :=
    mem_suiteBody tests n _ h (by simp [testTrace])
  exact List.mem_cons_of_mem _ (List.mem_append_left _ hb)

/-- Concrete instance of C6 for a one-test run. -/
theorem C6_every_scope_rolled_back_witness :
    0 < 1 ∧
    (Event.rollbackIssued 0 ∈ suiteTrace 1 ∧
     seqBefore (.testBody 0) (.rollbackIssued 0) (testTrace 0) ∧
     (∀ k, Event.commitIssued k ∉ suiteTrace 1) ∧
     (∀ s : Scope, (afterEachTeardown s).status = .rolledBack ∧
       settle (afterEachTeardown s) = s.base)) :=
  ⟨by decide, C6_every_scope_rolled_back 1 0 (by decide)⟩

/-- The flag computed by `deleteById` is true exactly when some row
carries the requested id, provided no row has id 0 (ids come from a
serial column starting at 1). -/
theorem delete_flag_iff_exists (rows : List Item) (id : Nat)
    (hpos : ∀ r ∈ rows, r.id ≠ 0) :
    truthyNat (((rows.filter (fun r => r.id == id)).map (fun r => r.id)).head?) = true
      ↔ ∃ r ∈ rows, r.id = id := by
  induction rows with
  | nil => simp [truthyNat]
  | cons r rs ih =>
      have htail : ∀ x ∈ rs, x.id ≠ 0 :=
        fun x hx => hpos x (List.mem_cons_of_mem r hx)
      by_cases hr : r.id = id
      · rw [List.filter_cons_of_pos (by simp [hr])]
        simp only [List.map_cons, List.head?_cons]
        constructor
        · intro _
          exact ⟨r, List.mem_cons_self r rs, hr⟩
        · intro _
          simp only [truthyNat, ne_eq, bne_iff_ne]
          exact hpos r (List.mem_cons_self r rs)
      · rw [List.filter_cons_of_neg (by simp [hr])]
        rw [ih htail]
        constructor
        · rintro ⟨x, hx, hxid⟩
          exact ⟨x, List.mem_cons_of_mem r hx, hxid⟩
        · rintro ⟨x, hx, hxid⟩
          rcases List.mem_cons.mp hx with rfl | hx'
          · exact absurd hxid hr
          · exact ⟨x, hx', hxid⟩

/-- Claim C7: `deleteById(id)` removes exactly the rows carrying `id`
and resolves to `true` exactly when such a row existed; concretely, a
test deleting seeded row 1 resolves `true`, and after its rollback the
next scope's `findById(1)` still finds the hammer row. -/
theorem C7_deleteById_spec (db : ItemsTable) (id : Nat)
    (hpos : ∀ r ∈ db.rows, r.id ≠ 0) :
    ((deleteById db id).2 = true ↔ ∃ r ∈ db.rows, r.id = id) ∧
    (deleteById db id).1.rows = db.rows.filter (fun r => r.id != id) ∧
    (runTest seedBaseline [Op.deleteOne 1]).1 = [OpResult.flag true] ∧
    findById (beginScope (runTest seedBaseline [Op.deleteOne 1]).2).work 1 =
      some { id := 1, sku := "hammer", mpn := none,
             description := some "A Claw Hammer" } :=
  ⟨delete_flag_iff_exists db.rows id hpos, rfl, by decide, by decide⟩

/-- Concrete instance of C7 at the seeded baseline and id 1. -/
theorem C7_deleteById_spec_witness :
    (∀ r ∈ seedBaseline.rows, r.id ≠ 0) ∧
    (((deleteById seedBaseline 1).2 = true ↔ ∃ r ∈ seedBaseline.rows, r.id = 1) ∧
     (deleteById seedBaseline 1).1.rows =
       seedBaseline.rows.filter (fun r => r.id != 1) ∧
     (runTest seedBaseline [Op.deleteOne 1]).1 = [OpResult.flag true] ∧
     findById (beginScope (runTest seedBaseline [Op.deleteOne 1]).2).work 1 =
       some { id := 1, sku := "hammer", mpn := none,
              description := some "A Claw Hammer" }) :=
  ⟨by decide, C7_deleteById_spec seedBaseline 1 (by decide)⟩

/-- Inserting rows never changes a table's catalog coordinates. -/
theorem foldl_insertRow_schemaname (vals : List NewItem) (t : PgTable) :
    (vals.foldl insertRow t).schemaname = t.schemaname := by
  induction vals generalizing t with
  | nil => rfl
  | cons v vs ih => exact ih (insertRow t v)

/-- Inserting rows never changes a table's name. -/
theorem foldl_insertRow_tablename (vals : List NewItem) (t : PgTable) :
    (vals.foldl insertRow t).tablename = t.tablename := by
  induction vals generalizing t with
  | nil => rfl
  | cons v vs ih => exact ih (insertRow t v)

/-- The seed empties, and resets the identity sequence of, every public
table that is not migration-tracking and not the `items` table it then
refills. -/
theorem seed_truncates (db : List PgTable) (t : PgTable) (htm : t ∈ seed db)
    (hpub : t.schemaname = "public") (hnm : likeMigrations t.tablename = false)
    (hni : t.tablename ≠ "items") :
    t.rows = [] ∧ t.seq = 1 := by
  simp only [seed, insertInto, List.mem_map] at htm
  obtain ⟨u, hu, hgu⟩ := htm
  simp only [truncateRestartIdentity, List.mem_map] at hu
  obtain ⟨v, hv, hfv⟩ := hu
  by_cases hcond : (u.schemaname == "public" && u.tablename == "items") = true
  · rw [if_pos hcond] at hgu
    have hname : t.tablename = u.tablename := by
      rw [← hgu]
      exact foldl_insertRow_tablename seedRows u
    have hitems : u.tablename = "items" := by
      have h2 := (Bool.and_eq_true _ _).mp hcond
      exact beq_iff_eq.mp h2.2
    exact absurd (hname.trans hitems) hni
  · rw [if_neg hcond] at hgu
    subst hgu
    by_cases htr :
        ((pgTablesQuery db).contains v.tablename && v.schemaname == "public") = true
    · rw [if_pos htr] at hfv
      subst hfv
      exact ⟨rfl, rfl⟩
    · rw [if_neg htr] at hfv
      subst hfv
      have hmem : v.tablename ∈ pgTablesQuery db := by
        simp only [pgTablesQuery, List.mem_map]
        refine ⟨v, List.mem_filter.mpr ⟨hv, ?_⟩, rfl⟩
        simp [hpub, hnm]
      refine absurd ?_ htr
      simp only [Bool.and_eq_true, beq_iff_eq]
      exact ⟨List.elem_iff.mpr hmem, hpub⟩

/-- The development database extended with a stray public table, used to
exhibit the truncation behaviour concretely. -/
def devDatabaseWithWidgets : List PgTable :=
  devDatabase ++
    [{ schemaname := "public", tablename := "widgets", seq := 3,
       rows := [{ id := 9, sku := "w9", mpn := none, description := none }] }]

/-- The stray table's state after the seed runs. -/
def widgetsAfterSeed : PgTable :=
  { schemaname := "public", tablename := "widgets", seq := 1, rows := [] }

/-- Claim C8: the seed truncates every non-migration-tracking public
table and resets its identity sequence; on the repository's development
database it leaves the `items` table holding exactly the three baseline
rows hammer, drill, toolbelt with ids 1, 2, 3; and in every run's trace
the seed step occurs exactly once, before every test's transaction
start. -/
theorem C8_seed_spec (db : List PgTable) (t : PgTable) (htm : t ∈ seed db)
    (hpub : t.schemaname = "public") (hnm : likeMigrations t.tablename = false)
    (hni : t.tablename ≠ "items") :
    (t.rows = [] ∧ t.seq = 1) ∧
    itemsOf (seed devDatabase) = seedBaseline ∧
    (∀ tests : Nat, (suiteTrace tests).count Event.seedRun = 1) ∧
    (∀ tests n : Nat, n < tests →
      seqBefore Event.seedRun (Event.trxStart n) (suiteTrace tests)) := by
  refine ⟨seed_truncates db t htm hpub hnm hni, by decide, ?_, ?_⟩
  · intro tests
    simp [suiteTrace, List.count_cons, List.count_append,
      seedRun_count_suiteBody, List.count_singleton]
  · intro tests n h
    exact seqBefore_cons_of_mem _ _ _
      (List.mem_append_left _ (mem_suiteBody tests n _ h (by simp [testTrace])))

/-- Concrete instance of C8 at the stray widgets table. -/
theorem C8_seed_spec_witness :
    (widgetsAfterSeed ∈ seed devDatabaseWithWidgets ∧
     widgetsAfterSeed.schemaname = "public" ∧
     likeMigrations widgetsAfterSeed.tablename = false ∧
     widgetsAfterSeed.tablename ≠ "items") ∧
    ((widgetsAfterSeed.rows = [] ∧ widgetsAfterSeed.seq = 1) ∧
     itemsOf (seed devDatabase) = seedBaseline ∧
     (∀ tests : Nat, (suiteTrace tests).count Event.seedRun = 1) ∧
     (∀ tests n : Nat, n < tests →
       seqBefore Event.seedRun (Event.trxStart n) (suiteTrace tests))) :=
  ⟨⟨by decide, by decide, by decide, by decide⟩,
   C8_seed_spec devDatabaseWithWidgets widgetsAfterSeed (by decide) (by decide)
     (by decide) (by decide)⟩
